import Mathlib

/-!
Verification development for the aominis repository.

This file shallowly embeds the decision logic of the verifier API
(`src/verifier/api/routes/verify.py`, `challenge.py`), the failure paths of
the two verifier services (`sympy_solver.py`, `gpt_solver.py`), the indexer
mirror store and its event mutations (`src/indexer/models.py`,
`event_listener.py`), the historical catch-up chunking loop
(`event_listener.py`), and the commit-reveal submission phase of the solver
bot (`src/sdk/bot_server.py`, `ominis_sdk.py`).

Confidences, which are Python floats in the source, are embedded as exact
rationals; every numeric literal of the source (0.8, 0.9, 0.95, ...) is
exactly representable, so no rounding issue separates the embedding from
the source on the values the claims are about.
-/

namespace Ominis

/-! ### Data model of the verifier services

`VerificationResult` mirrors the dataclass of the same name in
`sympy_solver.py` / `gpt_solver.py`: is_correct, confidence,
expected_solution, reason.  `ChallengeEvaluation` mirrors the dataclass in
`gpt_solver.py`. -/

structure VerificationResult where
  is_correct : Bool
  confidence : ℚ
  expected_solution : Option String := none
  reason : Option String := none
deriving DecidableEq, Repr

structure ChallengeEvaluation where
  is_valid : Bool
  assessment : String
deriving DecidableEq, Repr

/-- Python `str(x)` rendering of an `Optional[str]` inside an f-string:
`None` prints as the literal string "None". -/
def pyStr : Option String → String
  | none => "None"
  | some s => s

/-- Python `a or b` on `Optional[str]` values: `None` and the empty string
are falsy, anything else is returned as-is. -/
def pyOrStr : Option String → Option String → Option String
  | none, b => b
  | some s, b => if s = "" then b else some s

/-- ASCII lowering of one character (the address strings compared with
Python `str.lower()` are ASCII hex strings). -/
def lowerChar (c : Char) : Char :=
  if 65 ≤ c.toNat ∧ c.toNat ≤ 90 then Char.ofNat (c.toNat + 32) else c

/-- Python `s.lower()` on an ASCII string. -/
def pyLower (s : String) : String := ⟨s.data.map lowerChar⟩

/-! ### The verification consensus engine

`verify_solution` in `src/verifier/api/routes/verify.py` (lines 57-137).
The heuristic (GPT) verifier is only invoked when the analytic (SymPy)
confidence is below 0.9; the embedding takes the GPT call as a thunk and
returns, alongside the response, whether the thunk was forced
(`gptConsulted`). -/

structure VerifyResponse where
  order_id : Nat
  is_correct : Bool
  confidence : ℚ
  method : String
  expected_solution : Option String := none
  reason : Option String := none
deriving DecidableEq, Repr

def verify_solution (order_id : Nat) (sympy_result : VerificationResult)
    (gptCall : Unit → VerificationResult) : VerifyResponse × Bool :=
  if sympy_result.confidence ≥ 9/10 then
    (⟨order_id, sympy_result.is_correct, sympy_result.confidence, "sympy",
      sympy_result.expected_solution, sympy_result.reason⟩, false)
  else
    -- `gpt_result = gptCall ()` is computed once here in the source; the
    -- thunk is referenced in place below.
    if sympy_result.confidence > 0 ∧ (gptCall ()).confidence > 0 then
      if sympy_result.is_correct = (gptCall ()).is_correct then
        (⟨order_id, sympy_result.is_correct,
          min 1 ((sympy_result.confidence + (gptCall ()).confidence) / (3/2)),
          "sympy+gpt",
          pyOrStr sympy_result.expected_solution (gptCall ()).expected_solution,
          some ("Both methods agree: " ++ pyStr (gptCall ()).reason)⟩, true)
      else
        if sympy_result.confidence > (gptCall ()).confidence then
          (⟨order_id, sympy_result.is_correct, sympy_result.confidence * (4/5),
            "sympy (disputed)", sympy_result.expected_solution,
            some "SymPy result, but GPT disagrees"⟩, true)
        else
          (⟨order_id, (gptCall ()).is_correct, (gptCall ()).confidence * (4/5),
            "gpt (disputed)", (gptCall ()).expected_solution,
            some "GPT result, but SymPy disagrees"⟩, true)
    else
      (⟨order_id, (gptCall ()).is_correct, (gptCall ()).confidence, "gpt",
        (gptCall ()).expected_solution, (gptCall ()).reason⟩, true)

/-! ### The challenge resolution engine

`process_challenge` in `src/verifier/api/routes/challenge.py`
(lines 98-140).  The `analysis` field of the response is a log-style
rendering of the three judgments (with float formatting) and is not
modeled; the verdict fields are. -/

structure ChallengeResponse where
  order_id : Nat
  challenger_wins : Bool
  confidence : ℚ
  correct_solution : Option String := none
deriving DecidableEq, Repr

def process_challenge (order_id : Nat) (sympy_result gpt_result : VerificationResult)
    (challenger_evaluation : ChallengeEvaluation) : ChallengeResponse :=
  let verdict : Bool × ℚ :=
    if sympy_result.is_correct = false ∧ sympy_result.confidence > 4/5 ∧
       gpt_result.is_correct = false ∧ gpt_result.confidence > 4/5 then
      (true, 19/20)
    else if sympy_result.is_correct = true ∧ sympy_result.confidence > 4/5 ∧
       gpt_result.is_correct = true ∧ gpt_result.confidence > 4/5 then
      (false, 19/20)
    else if sympy_result.confidence > 9/10 then
      (!sympy_result.is_correct, sympy_result.confidence * (9/10))
    else if gpt_result.confidence > 9/10 then
      (!gpt_result.is_correct, gpt_result.confidence * (17/20))
    else if challenger_evaluation.is_valid then
      (true, 7/10)
    else
      (false, 3/5)
  ⟨order_id, verdict.1, verdict.2,
   pyOrStr sympy_result.expected_solution gpt_result.expected_solution⟩

/-- Spec-worded decision table of section 4.5 of the specification
(six rows, evaluated top to bottom, first match wins), for comparison with
`process_challenge` as translated from the source. -/
def challengeDecisionTable (analytic heuristic : VerificationResult)
    (ce : ChallengeEvaluation) : Bool × ℚ :=
  if analytic.confidence > 4/5 ∧ heuristic.confidence > 4/5 ∧
     analytic.is_correct = false ∧ heuristic.is_correct = false then
    (true, 19/20)
  else if analytic.confidence > 4/5 ∧ heuristic.confidence > 4/5 ∧
     analytic.is_correct = true ∧ heuristic.is_correct = true then
    (false, 19/20)
  else if analytic.confidence > 9/10 then
    (!analytic.is_correct, analytic.confidence * (9/10))
  else if heuristic.confidence > 9/10 then
    (!heuristic.is_correct, heuristic.confidence * (17/20))
  else if ce.is_valid then
    (true, 7/10)
  else
    (false, 3/5)

/-! ### Failure paths of the SymPy verifier

`SympySolver.verify` in `src/verifier/api/services/sympy_solver.py`
(lines 62-119).  The symbolic subroutines (`_parse_problem`,
`_compute_solution`, `_parse_expression`, `_compare_expressions`) are taken
as opaque capabilities; each may raise (the body sits in a `try` whose
`except` clause returns confidence 0.1), return no value (`None`), or
return a value.  Expressions are abstracted as strings (the route layer
only ever sees `str(expected)`). -/

def sympyVerifyE (parseProblem : Except String (Option String))
    (computeSolution : String → Except String (Option String))
    (parseSubmitted : Except String (Option String))
    (compare : String → String → Except String Bool) :
    Except String VerificationResult :=
  match parseProblem with
  | .error m => .error m
  | .ok none => .ok ⟨false, 0, none, some "Could not parse problem"⟩
  | .ok (some e) =>
    match computeSolution e with
    | .error m => .error m
    | .ok none => .ok ⟨false, 3/10, none, some "Could not compute expected solution"⟩
    | .ok (some exp) =>
      match parseSubmitted with
      | .error m => .error m
      | .ok none => .ok ⟨false, 1/2, some exp, some "Could not parse submitted solution"⟩
      | .ok (some sub) =>
        match compare sub exp with
        | .error m => .error m
        | .ok ok => .ok ⟨ok, if ok then 19/20 else 9/10, some exp,
            some (if ok then "Solutions match" else "Solutions differ")⟩

def sympyVerify (parseProblem : Except String (Option String))
    (computeSolution : String → Except String (Option String))
    (parseSubmitted : Except String (Option String))
    (compare : String → String → Except String Bool) : VerificationResult :=
  match sympyVerifyE parseProblem computeSolution parseSubmitted compare with
  | .ok r => r
  | .error m => ⟨false, 1/10, none, some ("Verification error: " ++ m)⟩

/-! ### Failure paths of the GPT verifier

`GPTSolver.verify` in `src/verifier/api/services/gpt_solver.py`
(lines 64-128).  The outcome of the API call and JSON parse is taken as an
opaque input covering the four control-flow paths of the source. -/

inductive GptCallOutcome where
  /-- `openai` missing or no API key configured. -/
  | unavailable
  /-- The call returned and its body parsed as JSON with these fields. -/
  | jsonOk (is_correct : Bool) (confidence : ℚ)
      (expected_solution : Option String) (reason : Option String)
  /-- `json.loads` raised `JSONDecodeError`; the substring heuristic on the
  raw response judged it correct/incorrect, and the first 200 characters
  become the reason. -/
  | jsonFallback (looks_correct : Bool) (snippet : String)
  /-- Any other exception (including the API call itself failing). -/
  | raised (msg : String)
deriving DecidableEq, Repr

def gptVerify : GptCallOutcome → VerificationResult
  | .unavailable => ⟨false, 0, none, some "OpenAI API not available"⟩
  | .jsonOk c conf exp reason => ⟨c, min 1 (max 0 conf), exp, reason⟩
  | .jsonFallback looks snippet => ⟨looks, 3/5, none, some snippet⟩
  | .raised m => ⟨false, 0, none, some ("GPT error: " ++ m)⟩

/-! ### Commit-reveal submission phase of the solver bot

`bot_loop` in `src/sdk/bot_server.py` (submission step, lines 405-465) and
`AutoSolver.solve_and_submit` (lines 635-714).  `OminisSDK.reveal_solution`
(`ominis_sdk.py`, lines 441-460) builds and sends the reveal transaction
unconditionally; all gating happens in the callers embedded here.
`poll` gives the order status observed at the i-th re-poll after an
unsuccessful commit receipt. -/

inductive OrderStatus where
  | OPEN | ACCEPTED | COMMITTED | REVEALED | VERIFIED | CHALLENGED
  | EXPIRED | CANCELLED
deriving DecidableEq, Repr

structure FreshOrder where
  status : OrderStatus
  solver : String
  timeRemaining : Nat
deriving Repr

/-- True when one of the first `n` re-polls observes status COMMITTED. -/
def committedWithinPolls (n : Nat) (poll : Nat → OrderStatus) : Bool :=
  (List.range n).any fun i => poll i = OrderStatus.COMMITTED

inductive BotStep where
  /-- Another solver holds the order: logged as an error, no submission. -/
  | skipSolverMismatch
  /-- Status already COMMITTED (salt unknown): logged, no submission. -/
  | skipAlreadyCommitted
  /-- Commit receipt failed and no re-poll saw COMMITTED: no reveal. -/
  | commitFailedNoReveal
  /-- The reveal transaction was submitted; the flag records whether the
  low-time warning (time remaining below 30 s) was logged beforehand. -/
  | revealSubmitted (lowTimeWarned : Bool)
deriving DecidableEq, Repr

def botSubmitPhase (ownAddress : String) (freshOrder : FreshOrder)
    (commitReceiptStatus : Bool) (poll : Nat → OrderStatus) : BotStep :=
  let lowTimeWarned := freshOrder.timeRemaining < 30
  if pyLower freshOrder.solver ≠ pyLower ownAddress then
    BotStep.skipSolverMismatch
  else if freshOrder.status = OrderStatus.COMMITTED then
    BotStep.skipAlreadyCommitted
  else if commitReceiptStatus || committedWithinPolls 5 poll then
    BotStep.revealSubmitted lowTimeWarned
  else
    BotStep.commitFailedNoReveal

/-- Whether `AutoSolver.solve_and_submit` reaches the reveal submission:
a successful commit receipt proceeds directly; a failed receipt re-polls up
to 3 times and proceeds only if some poll observes COMMITTED. -/
def autoSolverRevealReached (commitReceiptStatus : Bool)
    (poll : Nat → OrderStatus) : Bool :=
  commitReceiptStatus || committedWithinPolls 3 poll

/-! ### The indexer mirror store

Entities and upserts from `src/indexer/models.py`; event application from
the `_handle_*` methods of `src/indexer/event_listener.py`.  Timestamps and
block numbers are naturals; addresses and hashes are strings. -/

structure StOrder where
  id : Nat
  issuer : String
  problem_hash : String
  problem_type : Nat
  time_tier : Nat
  status : Nat
  reward : String
  created_at : Nat
  deadline : Nat
  solver : Option String := none
  tx_hash : Option String := none
  block_number : Option Nat := none
deriving DecidableEq, Repr

structure StSolution where
  order_id : Nat
  solver : String
  commit_hash : String
  solution : Option String := none
  salt : Option String := none
  commit_time : Option Nat := none
  reveal_time : Option Nat := none
  is_revealed : Bool := false
  tx_hash : Option String := none
deriving DecidableEq, Repr

structure StChallenge where
  order_id : Nat
  challenger : String
  stake : String
  reason : String
  challenge_time : Nat
  resolved : Bool := false
  challenger_won : Bool := false
  tx_hash : Option String := none
deriving DecidableEq, Repr

structure Store where
  orders : Nat → Option StOrder
  solutions : Nat → Option StSolution
  challenges : Nat → Option StChallenge

/-- A SQL upsert against the row at primary key `k`: the stored row at `k`
is replaced by `g` of the current row, every other key is untouched. -/
def upsertAt {α : Type} (m : Nat → Option α) (k : Nat)
    (g : Option α → Option α) : Nat → Option α :=
  fun i => if i = k then g (m k) else m i

/-- Row transformation of `Database.insert_order` (`models.py`, lines
153-169): insert the new row, or `ON CONFLICT (id) DO UPDATE SET status,
solver`. -/
def orderUpsert (o : StOrder) : Option StOrder → Option StOrder
  | none => some o
  | some old => some { old with status := o.status, solver := o.solver }

def insert_order (db : Store) (o : StOrder) : Store :=
  { db with orders := upsertAt db.orders o.id (orderUpsert o) }

/-- Row transformation of `Database.update_order_status` (`models.py`,
lines 171-186): update status, and solver too when the `solver` argument
is truthy (Python treats both `None` and `""` as falsy); no row, no
effect. -/
def statusUpdate (status : Nat) (solver : Option String) :
    Option StOrder → Option StOrder :=
  fun cur => cur.map fun old =>
    match solver with
    | some s => if s = "" then { old with status := status }
                else { old with status := status, solver := some s }
    | none => { old with status := status }

def update_order_status (db : Store) (order_id status : Nat)
    (solver : Option String) : Store :=
  { db with orders := upsertAt db.orders order_id (statusUpdate status solver) }

/-- Row transformation of `Database.insert_solution` (`models.py`, lines
251-269): insert, or `ON CONFLICT (order_id) DO UPDATE SET solution, salt,
reveal_time, is_revealed`. -/
def solutionUpsert (s : StSolution) : Option StSolution → Option StSolution
  | none => some s
  | some old => some { old with solution := s.solution, salt := s.salt, reveal_time := s.reveal_time, is_revealed := s.is_revealed }

def insert_solution (db : Store) (s : StSolution) : Store :=
  { db with solutions := upsertAt db.solutions s.order_id (solutionUpsert s) }

/-- Row transformation of `Database.insert_challenge` (`models.py`, lines
286-302): insert, or `ON CONFLICT (order_id) DO UPDATE SET resolved,
challenger_won`. -/
def challengeUpsert (c : StChallenge) : Option StChallenge → Option StChallenge
  | none => some c
  | some old => some { old with resolved := c.resolved, challenger_won := c.challenger_won }

def insert_challenge (db : Store) (c : StChallenge) : Store :=
  { db with challenges := upsertAt db.challenges c.order_id (challengeUpsert c) }

/-- Ledger events, with the payload each `_handle_*` method of
`event_listener.py` actually uses. -/
inductive Event where
  | problemPosted (orderId : Nat) (issuer : String) (problemType timeTier : Nat)
      (reward : String) (timestamp : Nat) (txHash : String) (blockNumber : Nat)
  | orderAccepted (orderId : Nat) (solver : String)
  | solutionCommitted (orderId : Nat) (solver : String) (commitHash : String)
      (timestamp : Nat) (txHash : String)
  | solutionRevealed (orderId : Nat) (solutionText : String) (timestamp : Nat)
  | challengeSubmitted (orderId : Nat) (challenger : String) (stake : String)
      (timestamp : Nat) (txHash : String)
deriving Repr

/-- The in-place mutation `_handle_solution_revealed` performs on the
fetched solution row before re-inserting it: set the revealed text, the
reveal time and the is_revealed flag. -/
def revealedRow (existing : StSolution) (sol : String) (ts : Nat) : StSolution :=
  { existing with solution := some sol, reveal_time := some ts, is_revealed := true }

/-- Event application, following `_handle_problem_posted` ...
`_handle_challenge_submitted` of `event_listener.py` (lines 260-325).
ProblemPosted stores an empty problem hash and uses the block timestamp
for both created_at and deadline, as the source does. -/
def handleEvent (db : Store) : Event → Store
  | .problemPosted id issuer pt tt reward ts tx bn =>
      insert_order db ⟨id, issuer, "", pt, tt, 0, reward, ts, ts, none, some tx, some bn⟩
  | .orderAccepted id solver =>
      update_order_status db id 1 (some solver)
  | .solutionCommitted id solver ch ts tx =>
      let db2 := insert_solution db ⟨id, solver, ch, none, none, some ts, none, false, some tx⟩
      update_order_status db2 id 2 none
  | .solutionRevealed id sol ts =>
      let db2 := match db.solutions id with
        | some existing => insert_solution db (revealedRow existing sol ts)
        | none => db
      update_order_status db2 id 3 none
  | .challengeSubmitted id challenger stake ts tx =>
      let db2 := insert_challenge db ⟨id, challenger, stake, "", ts, false, false, some tx⟩
      update_order_status db2 id 5 none

/-! ### Historical catch-up chunking

`EventListener._sync_historical_events` (`event_listener.py`,
lines 138-162): while `from < head`, take the range
`[from, min (from + chunkSize) head]`, process it, advance the checkpoint
to the range end and continue from the end plus one.  The fuel argument
(`head - from` suffices) makes the while loop structurally recursive. -/

def chunksGo (chunkSize head : Nat) : Nat → Nat → List (Nat × Nat)
  | 0, _ => []
  | fuel + 1, fromB =>
      if fromB < head then
        let toB := min (fromB + chunkSize) head
        (fromB, toB) :: chunksGo chunkSize head fuel (toB + 1)
      else []

/-- The sequence of block ranges processed by one historical catch-up run
starting at checkpoint `fromB` with the head at `head`. -/
def chunks (chunkSize head fromB : Nat) : List (Nat × Nat) :=
  chunksGo chunkSize head (head - fromB) fromB

/-- `EventListener._process_block_range` (lines 184-225): the whole body is
wrapped in `try/except`, so a raising per-range handler produces one error
log entry and nothing propagates. -/
def processBlockRangeE (handler : Nat × Nat → Except String Unit)
    (r : Nat × Nat) : Except String (List String) :=
  match handler r with
  | .ok _ => .ok []
  | .error e => .ok [e]

structure SyncResult where
  checkpoint : Nat
  handled : List (Nat × Nat)
  errors : List String
deriving DecidableEq, Repr

/-- One iteration of the catch-up loop body: process the range (errors
caught inside), then advance the checkpoint to the range end. -/
def syncStep (handler : Nat × Nat → Except String Unit) (acc : SyncResult)
    (c : Nat × Nat) : Except String SyncResult := do
  let logs ← processBlockRangeE handler c
  pure ⟨c.2, acc.handled ++ [c], acc.errors ++ logs⟩

/-- One historical catch-up run: fold the processing step over the chunk
sequence, advancing the checkpoint after every chunk whether or not its
processing logged an error. -/
def syncHistorical (handler : Nat × Nat → Except String Unit)
    (chunkSize head fromB : Nat) : Except String SyncResult :=
  (chunks chunkSize head fromB).foldlM (syncStep handler)
    (⟨fromB, [], []⟩ : SyncResult)

/-- The value of `last_processed_block` after the loop: the end of the last
processed range, or the starting checkpoint if no range was processed. -/
def lastCheckpoint (fromB : Nat) (L : List (Nat × Nat)) : Nat :=
  L.foldl (fun _ c => c.2) fromB

/-- The error-log entries one range contributes: none on success, the
caught message on failure. -/
def errLog (handler : Nat × Nat → Except String Unit) (r : Nat × Nat) :
    List String :=
  match handler r with
  | .ok _ => []
  | .error e => [e]

/-! ## Claims about the two verdict engines -/

/-- C1: for every challenge request, the verdict (challenger_wins,
confidence) computed by `process_challenge` equals the first matching row,
evaluated top to bottom, of the six-row decision table of the spec:
both verifiers confident (> 0.8) and agreeing incorrect — challenger wins
0.95; both confident and agreeing correct — challenger loses 0.95; else
analytic confidence > 0.9 — follow analytic at 0.9 times its confidence;
else heuristic confidence > 0.9 — follow heuristic at 0.85 times its
confidence; else a valid challenger argument wins at 0.70; otherwise the
challenger loses at 0.60. -/
theorem C1_challenge_verdict_matches_table (oid : Nat)
    (sy gp : VerificationResult) (ce : ChallengeEvaluation) :
    ((process_challenge oid sy gp ce).challenger_wins,
      (process_challenge oid sy gp ce).confidence) =
      challengeDecisionTable sy gp ce := by
  unfold process_challenge challengeDecisionTable
  split_ifs <;> first | rfl | tauto

/-- C2: when the analytic (SymPy) confidence is at least 0.9, the merged
verification result is the analytic judgment verbatim with method tag
"sympy" (the spec names this tag "analytic"), and the heuristic (GPT)
verifier is not consulted. -/
theorem C2_analytic_short_circuit (oid : Nat) (sy : VerificationResult)
    (gptCall : Unit → VerificationResult) (h : sy.confidence ≥ 9/10) :
    verify_solution oid sy gptCall =
      (⟨oid, sy.is_correct, sy.confidence, "sympy",
        sy.expected_solution, sy.reason⟩, false) := by
  unfold verify_solution
  rw [if_pos h]

/-- C2 witness: Scenario A — analytic (correct, 0.95) with heuristic
(correct, 0.3) merges to (correct, 0.95, method "sympy"), GPT unconsulted. -/
theorem C2_analytic_short_circuit_witness :
    (19 : ℚ)/20 ≥ 9/10 ∧
    verify_solution 123 ⟨true, 19/20, none, none⟩
        (fun _ => ⟨true, 3/10, none, none⟩) =
      (⟨123, true, 19/20, "sympy", none, none⟩, false) :=
  ⟨by norm_num,
   C2_analytic_short_circuit 123 ⟨true, 19/20, none, none⟩
     (fun _ => ⟨true, 3/10, none, none⟩) (by norm_num)⟩

/-- C3: when the analytic confidence is below 0.9 and both confidences are
strictly positive, agreement merges to the shared correctness with
confidence min 1 ((analytic + heuristic) / 1.5) and the combined tag
"sympy+gpt"; disagreement follows the strictly more confident verifier
with its confidence times 0.8 and a "(disputed)" tag. -/
theorem C3_combination_policy (oid : Nat) (sy : VerificationResult)
    (gptCall : Unit → VerificationResult)
    (hlt : sy.confidence < 9/10) (hs : sy.confidence > 0)
    (hg : (gptCall ()).confidence > 0) :
    (sy.is_correct = (gptCall ()).is_correct →
      (verify_solution oid sy gptCall).1 =
        ⟨oid, sy.is_correct,
         min 1 ((sy.confidence + (gptCall ()).confidence) / (3/2)),
         "sympy+gpt", pyOrStr sy.expected_solution (gptCall ()).expected_solution,
         some ("Both methods agree: " ++ pyStr (gptCall ()).reason)⟩) ∧
    (sy.is_correct ≠ (gptCall ()).is_correct →
      (sy.confidence > (gptCall ()).confidence →
        (verify_solution oid sy gptCall).1 =
          ⟨oid, sy.is_correct, sy.confidence * (4/5), "sympy (disputed)",
           sy.expected_solution, some "SymPy result, but GPT disagrees"⟩) ∧
      ((gptCall ()).confidence > sy.confidence →
        (verify_solution oid sy gptCall).1 =
          ⟨oid, (gptCall ()).is_correct, (gptCall ()).confidence * (4/5),
           "gpt (disputed)", (gptCall ()).expected_solution,
           some "GPT result, but SymPy disagrees"⟩)) := by
  unfold verify_solution
  refine ⟨fun hagree => ?_, fun hdis => ⟨fun hsg => ?_, fun hgs => ?_⟩⟩ <;>
    split_ifs <;> first | rfl | tauto | linarith

/-- C3 witness: analytic (correct, 0.5) and heuristic (correct, 0.7) agree
and merge to confidence min 1 ((0.5 + 0.7) / 1.5) = 0.8 with tag
"sympy+gpt"; the same pair with heuristic judging incorrect follows the
heuristic at 0.7 times 0.8. -/
theorem C3_combination_policy_witness :
    ((1 : ℚ)/2 < 9/10 ∧ (1 : ℚ)/2 > 0 ∧ (7 : ℚ)/10 > 0) ∧
    (verify_solution 7 ⟨true, 1/2, none, none⟩
        (fun _ => ⟨true, 7/10, none, none⟩)).1 =
      ⟨7, true, min 1 ((1/2 + 7/10) / (3/2)), "sympy+gpt", none,
       some ("Both methods agree: " ++ pyStr none)⟩ ∧
    (verify_solution 7 ⟨true, 1/2, none, none⟩
        (fun _ => ⟨false, 7/10, none, none⟩)).1 =
      ⟨7, false, (7/10) * (4/5), "gpt (disputed)", none,
       some "GPT result, but SymPy disagrees"⟩ := by
  refine ⟨⟨by norm_num, by norm_num, by norm_num⟩, ?_, ?_⟩
  · exact (C3_combination_policy 7 ⟨true, 1/2, none, none⟩
      (fun _ => ⟨true, 7/10, none, none⟩) (by norm_num) (by norm_num)
      (by norm_num)).1 rfl
  · exact ((C3_combination_policy 7 ⟨true, 1/2, none, none⟩
      (fun _ => ⟨false, 7/10, none, none⟩) (by norm_num) (by norm_num)
      (by norm_num)).2 (by simp)).2 (by norm_num)

/-- C4: with every underlying verifier confidence in [0, 1], the
confidence output by the verification consensus engine and by the
challenge resolution engine lies in [0, 1]. -/
theorem C4_confidence_clamped (oid : Nat) (sy gp : VerificationResult)
    (gptCall : Unit → VerificationResult) (ce : ChallengeEvaluation)
    (hs0 : 0 ≤ sy.confidence) (hs1 : sy.confidence ≤ 1)
    (hc0 : 0 ≤ (gptCall ()).confidence) (hc1 : (gptCall ()).confidence ≤ 1)
    (hg0 : 0 ≤ gp.confidence) (hg1 : gp.confidence ≤ 1) :
    (0 ≤ (verify_solution oid sy gptCall).1.confidence ∧
      (verify_solution oid sy gptCall).1.confidence ≤ 1) ∧
    (0 ≤ (process_challenge oid sy gp ce).confidence ∧
      (process_challenge oid sy gp ce).confidence ≤ 1) := by
  unfold verify_solution process_challenge
  constructor <;> constructor <;>
    split_ifs <;>
    simp only [le_min_iff, min_le_iff] <;>
    first
      | (constructor <;> linarith)
      | linarith

/-- C4 witness: concrete in-range verifier outputs on both engines. -/
theorem C4_confidence_clamped_witness :
    ((0 : ℚ) ≤ 1/2 ∧ (1 : ℚ)/2 ≤ 1 ∧ (0 : ℚ) ≤ 7/10 ∧ (7 : ℚ)/10 ≤ 1 ∧
      (0 : ℚ) ≤ 19/20 ∧ (19 : ℚ)/20 ≤ 1) ∧
    ((0 ≤ (verify_solution 9 ⟨true, 1/2, none, none⟩
        (fun _ => ⟨false, 7/10, none, none⟩)).1.confidence ∧
      (verify_solution 9 ⟨true, 1/2, none, none⟩
        (fun _ => ⟨false, 7/10, none, none⟩)).1.confidence ≤ 1) ∧
     (0 ≤ (process_challenge 9 ⟨true, 1/2, none, none⟩ ⟨false, 19/20, none, none⟩
        ⟨true, "a"⟩).confidence ∧
      (process_challenge 9 ⟨true, 1/2, none, none⟩ ⟨false, 19/20, none, none⟩
        ⟨true, "a"⟩).confidence ≤ 1)) :=
  ⟨⟨by norm_num, by norm_num, by norm_num, by norm_num, by norm_num, by norm_num⟩,
   C4_confidence_clamped 9 ⟨true, 1/2, none, none⟩ ⟨false, 19/20, none, none⟩
     (fun _ => ⟨false, 7/10, none, none⟩) ⟨true, "a"⟩
     (by norm_num) (by norm_num) (by norm_num) (by norm_num)
     (by norm_num) (by norm_num)⟩

/-! ## Claims about the commit-reveal coordinator -/

/-- C5 counterexample: the claimed three-precondition gate does not exist.
At a concrete input whose time remaining (10 s) is below the 30 s safety
margin — and whose status is ACCEPTED, not COMMITTED — the submission
phase still submits the reveal transaction (merely logging the low-time
warning) instead of aborting. -/
theorem C5_reveal_gate_counterexample :
    botSubmitPhase "0xabc" ⟨OrderStatus.ACCEPTED, "0xabc", 10⟩ true
        (fun _ => OrderStatus.ACCEPTED) = BotStep.revealSubmitted true ∧
    10 < 30 ∧ OrderStatus.ACCEPTED ≠ OrderStatus.COMMITTED := by
  refine ⟨by decide, by decide, by decide⟩

/-- C5 amended: before the commit-reveal submission the coordinator
re-fetches the order and aborts without submitting in exactly two cases —
the recorded solver differs from its own identity, or the status is
already COMMITTED (the salt being unknown); a time remaining below the
30 s safety margin only logs a warning and does not abort, and once the
commit is confirmed the reveal is submitted with no further precondition
check (`OminisSDK.reveal_solution` itself checks nothing). -/
theorem C5_submit_gate_amended (own : String) (o : FreshOrder)
    (rcpt : Bool) (poll : Nat → OrderStatus) :
    (pyLower o.solver ≠ pyLower own →
      botSubmitPhase own o rcpt poll = BotStep.skipSolverMismatch) ∧
    (pyLower o.solver = pyLower own → o.status = OrderStatus.COMMITTED →
      botSubmitPhase own o rcpt poll = BotStep.skipAlreadyCommitted) ∧
    (pyLower o.solver = pyLower own → o.status ≠ OrderStatus.COMMITTED →
      (rcpt || committedWithinPolls 5 poll) = true →
      botSubmitPhase own o rcpt poll =
        BotStep.revealSubmitted (decide (o.timeRemaining < 30))) := by
  unfold botSubmitPhase
  refine ⟨fun h1 => ?_, fun h1 h2 => ?_, fun h1 h2 h3 => ?_⟩ <;>
    split_ifs <;> simp_all

/-- C5 amended witness: a mismatched solver aborts; an already-COMMITTED
order aborts; a matching solver on an ACCEPTED order with a successful
commit receipt reaches the reveal even with only 10 s remaining. -/
theorem C5_submit_gate_amended_witness :
    botSubmitPhase "0xabc" ⟨OrderStatus.ACCEPTED, "0xdef", 100⟩ true
        (fun _ => OrderStatus.ACCEPTED) = BotStep.skipSolverMismatch ∧
    botSubmitPhase "0xabc" ⟨OrderStatus.COMMITTED, "0xabc", 100⟩ true
        (fun _ => OrderStatus.ACCEPTED) = BotStep.skipAlreadyCommitted ∧
    botSubmitPhase "0xabc" ⟨OrderStatus.ACCEPTED, "0xabc", 10⟩ true
        (fun _ => OrderStatus.ACCEPTED) =
      BotStep.revealSubmitted (decide (10 < 30)) :=
  ⟨(C5_submit_gate_amended "0xabc" ⟨OrderStatus.ACCEPTED, "0xdef", 100⟩ true
      (fun _ => OrderStatus.ACCEPTED)).1 (by decide),
   (C5_submit_gate_amended "0xabc" ⟨OrderStatus.COMMITTED, "0xabc", 100⟩ true
      (fun _ => OrderStatus.ACCEPTED)).2.1 (by decide) rfl,
   (C5_submit_gate_amended "0xabc" ⟨OrderStatus.ACCEPTED, "0xabc", 10⟩ true
      (fun _ => OrderStatus.ACCEPTED)).2.2 (by decide) (by decide) rfl⟩

/-- Bounded re-polling reads as an existence over the polled statuses. -/
lemma committedWithinPolls_iff (n : Nat) (poll : Nat → OrderStatus) :
    committedWithinPolls n poll = true ↔
      ∃ i, i < n ∧ poll i = OrderStatus.COMMITTED := by
  simp [committedWithinPolls, List.any_eq_true, List.mem_range]

/-- C8: an unsuccessful commit receipt is treated as ambiguous: the bot
loop re-polls the order status up to 5 times (the auto-solver up to 3);
if some poll within the budget observes COMMITTED the commit is treated
as successful and the reveal proceeds, and if the budget is exhausted
without observing COMMITTED no reveal is submitted. -/
theorem C8_ambiguous_commit_receipt (own : String) (o : FreshOrder)
    (poll : Nat → OrderStatus)
    (hsolver : pyLower o.solver = pyLower own)
    (hstatus : o.status ≠ OrderStatus.COMMITTED) :
    ((∃ i, i < 5 ∧ poll i = OrderStatus.COMMITTED) →
      botSubmitPhase own o false poll =
        BotStep.revealSubmitted (decide (o.timeRemaining < 30))) ∧
    ((∀ i, i < 5 → poll i ≠ OrderStatus.COMMITTED) →
      botSubmitPhase own o false poll = BotStep.commitFailedNoReveal) ∧
    (autoSolverRevealReached false poll = true ↔
      ∃ i, i < 3 ∧ poll i = OrderStatus.COMMITTED) := by
  refine ⟨fun hex => ?_, fun hall => ?_, ?_⟩
  · unfold botSubmitPhase
    rw [if_neg (by simp [hsolver]), if_neg hstatus,
      if_pos (by simp [committedWithinPolls_iff]; exact hex)]
  · unfold botSubmitPhase
    rw [if_neg (by simp [hsolver]), if_neg hstatus, if_neg ?_]
    simp only [Bool.false_or, committedWithinPolls_iff]
    rintro ⟨i, hi, hp⟩
    exact hall i hi hp
  · simp [autoSolverRevealReached, committedWithinPolls_iff]

/-- C8 witness: with a failed receipt, observing COMMITTED on the fourth
re-poll proceeds to reveal; never observing it yields no reveal; the
auto-solver budget of 3 misses a COMMITTED first observed at poll 3. -/
theorem C8_ambiguous_commit_receipt_witness :
    botSubmitPhase "0xabc" ⟨OrderStatus.ACCEPTED, "0xabc", 100⟩ false
        (fun i => if i = 3 then OrderStatus.COMMITTED else OrderStatus.OPEN) =
      BotStep.revealSubmitted (decide ((100 : Nat) < 30)) ∧
    botSubmitPhase "0xabc" ⟨OrderStatus.ACCEPTED, "0xabc", 100⟩ false
        (fun _ => OrderStatus.OPEN) = BotStep.commitFailedNoReveal ∧
    autoSolverRevealReached false
        (fun i => if i = 3 then OrderStatus.COMMITTED else OrderStatus.OPEN) =
      false :=
  ⟨(C8_ambiguous_commit_receipt "0xabc" ⟨OrderStatus.ACCEPTED, "0xabc", 100⟩
      (fun i => if i = 3 then OrderStatus.COMMITTED else OrderStatus.OPEN)
      rfl (by decide)).1 ⟨3, by norm_num, by decide⟩,
   (C8_ambiguous_commit_receipt "0xabc" ⟨OrderStatus.ACCEPTED, "0xabc", 100⟩
      (fun _ => OrderStatus.OPEN) rfl (by decide)).2.1
      (fun i _ => by exact (by decide : OrderStatus.OPEN ≠ OrderStatus.COMMITTED)),
   by decide⟩

/-! ## Claims about the indexer mirror store -/

lemma Store.ext3 {a b : Store} (h1 : ∀ i, a.orders i = b.orders i)
    (h2 : ∀ i, a.solutions i = b.solutions i)
    (h3 : ∀ i, a.challenges i = b.challenges i) : a = b := by
  cases a; cases b
  simp only [Store.mk.injEq]
  exact ⟨funext h1, funext h2, funext h3⟩

lemma upsertAt_self {α : Type} (m : Nat → Option α) (k : Nat)
    (g : Option α → Option α) : upsertAt m k g k = g (m k) := by
  simp [upsertAt]

lemma upsertAt_ne {α : Type} (m : Nat → Option α) (k : Nat)
    (g : Option α → Option α) {i : Nat} (h : i ≠ k) :
    upsertAt m k g i = m i := by
  simp [upsertAt, h]

lemma upsertAt_idem {α : Type} (m : Nat → Option α) (k : Nat)
    (g : Option α → Option α) (h : g (g (m k)) = g (m k)) :
    upsertAt (upsertAt m k g) k g = upsertAt m k g := by
  funext i
  by_cases hik : i = k
  · subst hik
    rw [upsertAt_self, upsertAt_self, h]
  · rw [upsertAt_ne _ _ _ hik, upsertAt_ne _ _ _ hik]

lemma insert_order_idem (db : Store) (o : StOrder) :
    insert_order (insert_order db o) o = insert_order db o := by
  apply Store.ext3 <;> intro i <;> simp only [insert_order] <;>
    first
      | rfl
      | exact congrFun (upsertAt_idem _ _ _ (by cases db.orders o.id <;> rfl)) i

lemma update_order_status_idem (db : Store) (id st : Nat) (sv : Option String) :
    update_order_status (update_order_status db id st sv) id st sv =
      update_order_status db id st sv := by
  apply Store.ext3 <;> intro i <;> simp only [update_order_status] <;>
    first
      | rfl
      | exact congrFun (upsertAt_idem _ _ _ (by
          cases db.orders id with
          | none => rfl
          | some old =>
              cases sv with
              | none => rfl
              | some s =>
                  by_cases hs : s = ""
                  · subst hs; rfl
                  · simp only [statusUpdate, Option.map_some', if_neg hs])) i

lemma insert_solution_idem (db : Store) (s : StSolution) :
    insert_solution (insert_solution db s) s = insert_solution db s := by
  apply Store.ext3 <;> intro i <;> simp only [insert_solution] <;>
    first
      | rfl
      | exact congrFun (upsertAt_idem _ _ _ (by cases db.solutions s.order_id <;> rfl)) i

lemma insert_challenge_idem (db : Store) (c : StChallenge) :
    insert_challenge (insert_challenge db c) c = insert_challenge db c := by
  apply Store.ext3 <;> intro i <;> simp only [insert_challenge] <;>
    first
      | rfl
      | exact congrFun (upsertAt_idem _ _ _ (by cases db.challenges c.order_id <;> rfl)) i

lemma insert_solution_update_comm (db : Store) (s : StSolution)
    (id st : Nat) (sv : Option String) :
    insert_solution (update_order_status db id st sv) s =
      update_order_status (insert_solution db s) id st sv := rfl

lemma insert_challenge_update_comm (db : Store) (c : StChallenge)
    (id st : Nat) (sv : Option String) :
    insert_challenge (update_order_status db id st sv) c =
      update_order_status (insert_challenge db c) id st sv := rfl

lemma update_order_status_solutions (db : Store) (id st : Nat)
    (sv : Option String) :
    (update_order_status db id st sv).solutions = db.solutions := rfl

lemma insert_solution_orders (db : Store) (s : StSolution) :
    (insert_solution db s).orders = db.orders := rfl

lemma insert_challenge_orders (db : Store) (c : StChallenge) :
    (insert_challenge db c).orders = db.orders := rfl

lemma insert_solution_solutions_eq (db : Store) (s : StSolution) :
    (insert_solution db s).solutions =
      upsertAt db.solutions s.order_id (solutionUpsert s) := rfl

lemma update_order_status_orders_eq (db : Store) (oid st : Nat)
    (sv : Option String) :
    (update_order_status db oid st sv).orders =
      upsertAt db.orders oid (statusUpdate st sv) := rfl

/-- Re-delivery of a SolutionRevealed event is idempotent: the solution
row, once rewritten with the revealed text, absorbs a second application. -/
lemma reveal_step_idem (db : Store) (id : Nat) (sol : String) (ts : Nat) :
    handleEvent (handleEvent db (Event.solutionRevealed id sol ts))
        (Event.solutionRevealed id sol ts) =
      handleEvent db (Event.solutionRevealed id sol ts) := by
  cases hdb : db.solutions id with
  | none =>
      have h1 : handleEvent db (Event.solutionRevealed id sol ts) =
          update_order_status db id 3 none := by
        simp only [handleEvent, hdb]
      rw [h1]
      have hv : (update_order_status db id 3 none).solutions id = none := hdb
      have h2 : handleEvent (update_order_status db id 3 none)
          (Event.solutionRevealed id sol ts) =
          update_order_status (update_order_status db id 3 none) id 3 none := by
        simp only [handleEvent, hv]
      rw [h2]
      exact update_order_status_idem db id 3 none
  | some ex =>
      have h1 : handleEvent db (Event.solutionRevealed id sol ts) =
          update_order_status (insert_solution db (revealedRow ex sol ts))
            id 3 none := by
        simp only [handleEvent, hdb]
      rw [h1]
      obtain ⟨e1, he1, habs⟩ : ∃ e1,
          (insert_solution db (revealedRow ex sol ts)).solutions id = some e1 ∧
          revealedRow e1 sol ts = revealedRow ex sol ts := by
        by_cases hid : id = (revealedRow ex sol ts).order_id
        · refine ⟨revealedRow ex sol ts, ?_, rfl⟩
          rw [insert_solution_solutions_eq, hid, upsertAt_self, ← hid, hdb]
          rfl
        · refine ⟨ex, ?_, rfl⟩
          rw [insert_solution_solutions_eq, upsertAt_ne _ _ _ hid, hdb]
      have hv : (update_order_status (insert_solution db (revealedRow ex sol ts))
          id 3 none).solutions id = some e1 := he1
      have h2 : handleEvent (update_order_status
            (insert_solution db (revealedRow ex sol ts)) id 3 none)
          (Event.solutionRevealed id sol ts) =
          update_order_status (insert_solution (update_order_status
            (insert_solution db (revealedRow ex sol ts)) id 3 none)
            (revealedRow ex sol ts)) id 3 none := by
        simp only [handleEvent, hv, habs]
      rw [h2, insert_solution_update_comm, insert_solution_idem]
      exact update_order_status_idem _ id 3 none

/-- Each mutation leaves the issuer, created_at and problem_hash fields of
an existing order untouched. -/
lemma handleEvent_orders_core (db : Store) (e : Event) (id : Nat) (o : StOrder)
    (h : db.orders id = some o) :
    ∃ o2, (handleEvent db e).orders id = some o2 ∧ o2.issuer = o.issuer ∧
      o2.created_at = o.created_at ∧ o2.problem_hash = o.problem_hash := by
  have upd : ∀ (db2 : Store) (st : Nat) (sv : Option String) (oid : Nat),
      db2.orders id = some o →
      ∃ o2, (update_order_status db2 oid st sv).orders id = some o2 ∧
        o2.issuer = o.issuer ∧ o2.created_at = o.created_at ∧
        o2.problem_hash = o.problem_hash := by
    intro db2 st sv oid h2
    rw [update_order_status_orders_eq]
    by_cases hid : id = oid
    · subst hid
      rw [upsertAt_self, h2]
      cases sv with
      | none => exact ⟨_, rfl, rfl, rfl, rfl⟩
      | some s =>
          by_cases hs : s = ""
          · subst hs
            exact ⟨_, rfl, rfl, rfl, rfl⟩
          · simp only [statusUpdate, Option.map_some', if_neg hs]
            exact ⟨_, rfl, rfl, rfl, rfl⟩
    · rw [upsertAt_ne _ _ _ hid]
      exact ⟨o, h2, rfl, rfl, rfl⟩
  cases e with
  | problemPosted oid issuer pt tt reward ts tx bn =>
      have hO : (handleEvent db
          (Event.problemPosted oid issuer pt tt reward ts tx bn)).orders =
          upsertAt db.orders oid
            (orderUpsert ⟨oid, issuer, "", pt, tt, 0, reward, ts, ts, none, some tx, some bn⟩) := rfl
      rw [hO]
      by_cases hid : id = oid
      · subst hid
        rw [upsertAt_self, h]
        exact ⟨_, rfl, rfl, rfl, rfl⟩
      · rw [upsertAt_ne _ _ _ hid]
        exact ⟨o, h, rfl, rfl, rfl⟩
  | orderAccepted oid solver =>
      exact upd db 1 (some solver) oid h
  | solutionCommitted oid solver ch ts tx =>
      exact upd _ 2 none oid (by rw [insert_solution_orders]; exact h)
  | solutionRevealed oid sol ts =>
      simp only [handleEvent]
      cases db.solutions oid with
      | none => exact upd db 3 none oid h
      | some ex => exact upd _ 3 none oid (by rw [insert_solution_orders]; exact h)
  | challengeSubmitted oid challenger stake ts tx =>
      exact upd _ 5 none oid (by rw [insert_challenge_orders]; exact h)

lemma foldl_handleEvent_orders_core (es : List Event) :
    ∀ (db : Store) (id : Nat) (o : StOrder), db.orders id = some o →
    ∃ o2, (es.foldl handleEvent db).orders id = some o2 ∧
      o2.issuer = o.issuer ∧ o2.created_at = o.created_at ∧
      o2.problem_hash = o.problem_hash := by
  induction es with
  | nil => intro db id o h; exact ⟨o, h, rfl, rfl, rfl⟩
  | cons e es ih =>
      intro db id o h
      obtain ⟨o1, h1, hi1, hc1, hp1⟩ := handleEvent_orders_core db e id o h
      obtain ⟨o2, h2, hi2, hc2, hp2⟩ := ih (handleEvent db e) id o1 h1
      exact ⟨o2, h2, hi2.trans hi1, hc2.trans hc1, hp2.trans hp1⟩

/-- C6: applying any ledger event to the mirror store twice in succession
yields the same store as applying it once, and once an order row exists its
issuer, created_at and problem_hash fields survive any further sequence of
event applications (including re-deliveries) unchanged. -/
theorem C6_idempotent_replay_immutable_core :
    (∀ (e : Event) (db : Store),
      handleEvent (handleEvent db e) e = handleEvent db e) ∧
    (∀ (es : List Event) (db : Store) (id : Nat) (o : StOrder),
      db.orders id = some o →
      ∃ o2, (es.foldl handleEvent db).orders id = some o2 ∧
        o2.issuer = o.issuer ∧ o2.created_at = o.created_at ∧
        o2.problem_hash = o.problem_hash) := by
  constructor
  · intro e db
    cases e with
    | problemPosted oid issuer pt tt reward ts tx bn =>
        exact insert_order_idem db _
    | orderAccepted oid solver =>
        exact update_order_status_idem db oid 1 (some solver)
    | solutionCommitted oid solver ch ts tx =>
        simp only [handleEvent]
        rw [insert_solution_update_comm, insert_solution_idem,
          update_order_status_idem]
    | solutionRevealed oid sol ts =>
        exact reveal_step_idem db oid sol ts
    | challengeSubmitted oid challenger stake ts tx =>
        simp only [handleEvent]
        rw [insert_challenge_update_comm, insert_challenge_idem,
          update_order_status_idem]
  · intro es db id o h
    exact foldl_handleEvent_orders_core es db id o h

/-- C6 witness: a store holding order 5 keeps issuer, created_at and
problem_hash across an OrderAccepted re-delivery followed by a stale
ProblemPosted re-delivery with different payload fields. -/
theorem C6_idempotent_replay_immutable_core_witness :
    ∃ o2, (([Event.orderAccepted 5 "0xcafe",
        Event.problemPosted 5 "0xevil" 1 2 "999" 777 "0xtx2" 42].foldl handleEvent
        ⟨fun i => if i = 5 then
            some ⟨5, "0xissuer", "0xhash", 0, 1, 0, "100", 1111, 2222, none, none, none⟩
          else none,
          fun _ => none, fun _ => none⟩).orders 5 = some o2 ∧
      o2.issuer = "0xissuer" ∧ o2.created_at = 1111 ∧ o2.problem_hash = "0xhash") :=
  C6_idempotent_replay_immutable_core.2
    [Event.orderAccepted 5 "0xcafe",
      Event.problemPosted 5 "0xevil" 1 2 "999" 777 "0xtx2" 42]
    ⟨fun i => if i = 5 then
        some ⟨5, "0xissuer", "0xhash", 0, 1, 0, "100", 1111, 2222, none, none, none⟩
      else none,
      fun _ => none, fun _ => none⟩ 5
    ⟨5, "0xissuer", "0xhash", 0, 1, 0, "100", 1111, 2222, none, none, none⟩ rfl

/-! ## Claims about the historical catch-up loop -/

lemma chunksGo_stop (cs hd fuel fr : Nat) (h : hd ≤ fr) :
    chunksGo cs hd fuel fr = [] := by
  cases fuel with
  | zero => rfl
  | succ n => simp [chunksGo, Nat.not_lt.mpr h]

lemma chunksGo_mem (cs hd : Nat) :
    ∀ (fuel fr : Nat) (c : Nat × Nat), c ∈ chunksGo cs hd fuel fr →
      fr ≤ c.1 ∧ c.1 < hd ∧ c.2 = min (c.1 + cs) hd := by
  intro fuel
  induction fuel with
  | zero => intro fr c hc; simp [chunksGo] at hc
  | succ n ih =>
      intro fr c hc
      by_cases hlt : fr < hd
      · rw [chunksGo, if_pos hlt] at hc
        rcases List.mem_cons.mp hc with heq | htail
        · rw [heq]
          exact ⟨le_refl _, hlt, rfl⟩
        · obtain ⟨ha, hb, hc2⟩ := ih _ c htail
          have hfr : fr ≤ min (fr + cs) hd :=
            le_min (Nat.le_add_right _ _) (le_of_lt hlt)
          exact ⟨by omega, hb, hc2⟩
      · rw [chunksGo, if_neg hlt] at hc
        simp at hc

lemma chunksGo_head_fst (cs hd : Nat) :
    ∀ (fuel fr : Nat) (c : Nat × Nat),
      (chunksGo cs hd fuel fr).head? = some c → c.1 = fr := by
  intro fuel fr c h
  cases fuel with
  | zero => simp [chunksGo] at h
  | succ n =>
      by_cases hlt : fr < hd
      · rw [chunksGo, if_pos hlt] at h
        simp only [List.head?_cons, Option.some.injEq] at h
        rw [← h]
      · rw [chunksGo, if_neg hlt] at h
        simp at h

lemma chunksGo_chain (cs hd : Nat) :
    ∀ (fuel fr : Nat),
      List.Chain' (fun a b : Nat × Nat => b.1 = a.2 + 1)
        (chunksGo cs hd fuel fr) := by
  intro fuel
  induction fuel with
  | zero => intro fr; simp [chunksGo]
  | succ n ih =>
      intro fr
      by_cases hlt : fr < hd
      · rw [chunksGo, if_pos hlt]
        refine List.chain'_cons'.mpr ⟨?_, ih _⟩
        intro b hb
        exact chunksGo_head_fst cs hd n _ b hb
      · rw [chunksGo, if_neg hlt]
        simp

lemma chunksGo_pairwise (cs hd : Nat) :
    ∀ (fuel fr : Nat),
      List.Pairwise (fun a b : Nat × Nat => a.2 < b.1)
        (chunksGo cs hd fuel fr) := by
  intro fuel
  induction fuel with
  | zero => intro fr; simp [chunksGo]
  | succ n ih =>
      intro fr
      by_cases hlt : fr < hd
      · rw [chunksGo, if_pos hlt]
        refine List.pairwise_cons.mpr ⟨?_, ih _⟩
        intro b hb
        have hmem := chunksGo_mem cs hd n _ b hb
        show min (fr + cs) hd < b.1
        omega
      · rw [chunksGo, if_neg hlt]
        simp

lemma lastCheckpoint_cons (x : Nat) (c : Nat × Nat) (L : List (Nat × Nat)) :
    lastCheckpoint x (c :: L) = lastCheckpoint c.2 L := rfl

lemma lastCheckpoint_irrel (x y : Nat) (L : List (Nat × Nat)) (h : L ≠ []) :
    lastCheckpoint x L = lastCheckpoint y L := by
  cases L with
  | nil => exact absurd rfl h
  | cons c t => rfl

lemma chunksGo_checkpoint (cs hd : Nat) :
    ∀ (fuel fr x : Nat), hd - fr ≤ fuel → fr < hd →
      lastCheckpoint x (chunksGo cs hd fuel fr) =
        if (hd - fr) % (cs + 1) = 0 then hd - 1 else hd := by
  intro fuel
  induction fuel with
  | zero => intro fr x hf hlt; exact absurd hlt (by omega)
  | succ n ih =>
      intro fr x hf hlt
      rw [chunksGo, if_pos hlt, lastCheckpoint_cons]
      by_cases hcs : hd ≤ fr + cs
      · rw [show min (fr + cs) hd = hd from min_eq_right hcs]
        rw [chunksGo_stop cs hd n (hd + 1) (by omega)]
        have hmod : (hd - fr) % (cs + 1) = hd - fr :=
          Nat.mod_eq_of_lt (by omega)
        rw [hmod, if_neg (by omega)]
        rfl
      · rw [show min (fr + cs) hd = fr + cs from min_eq_left (by omega)]
        by_cases hlast : fr + cs + 1 < hd
        · rw [ih (fr + cs + 1) (fr, fr + cs).2 (by omega) (by omega)]
          have hmod : (hd - fr) % (cs + 1) = (hd - (fr + cs + 1)) % (cs + 1) := by
            rw [Nat.mod_eq_sub_mod (by omega : cs + 1 ≤ hd - fr)]
            congr 1
            omega
          rw [hmod]
        · rw [chunksGo_stop cs hd n (fr + cs + 1) (by omega)]
          have hmod : (hd - fr) % (cs + 1) = 0 := by
            rw [show hd - fr = cs + 1 from by omega]
            exact Nat.mod_self _
          rw [hmod, if_pos rfl]
          show fr + cs = hd - 1
          omega

lemma chunksGo_cover (cs hd : Nat) :
    ∀ (fuel fr : Nat), hd - fr ≤ fuel → fr < hd →
      ∀ b, fr ≤ b →
        b ≤ lastCheckpoint fr (chunksGo cs hd fuel fr) →
        ∃ c ∈ chunksGo cs hd fuel fr, c.1 ≤ b ∧ b ≤ c.2 := by
  intro fuel
  induction fuel with
  | zero => intro fr hf hlt; exact absurd hlt (by omega)
  | succ n ih =>
      intro fr hf hlt b hfb hble
      rw [chunksGo, if_pos hlt] at hble ⊢
      rw [lastCheckpoint_cons] at hble
      by_cases hb : b ≤ min (fr + cs) hd
      · exact ⟨(fr, min (fr + cs) hd), List.mem_cons_self _ _, hfb, hb⟩
      · push_neg at hb
        cases htail : chunksGo cs hd n (min (fr + cs) hd + 1) with
        | nil =>
            rw [htail] at hble
            have hble3 : b ≤ min (fr + cs) hd := hble
            exact absurd hble3 (by omega)
        | cons c t =>
            have hne : chunksGo cs hd n (min (fr + cs) hd + 1) ≠ [] := by
              rw [htail]; simp
            have hfr2 : min (fr + cs) hd + 1 < hd := by
              by_contra hge
              rw [chunksGo_stop cs hd n _ (by omega)] at htail
              exact absurd htail (by simp)
            have hble2 : b ≤ lastCheckpoint (min (fr + cs) hd + 1)
                (chunksGo cs hd n (min (fr + cs) hd + 1)) := by
              rw [lastCheckpoint_irrel _ ((fr, min (fr + cs) hd)).2 _ hne]
              exact hble
            obtain ⟨c2, hc2mem, hc2a, hc2b⟩ :=
              ih (min (fr + cs) hd + 1) (by omega) hfr2 b (by omega) hble2
            exact ⟨c2, List.mem_cons_of_mem _ hc2mem, hc2a, hc2b⟩

lemma chunksGo_ne_nil (cs hd fuel fr : Nat) (hf : hd - fr ≤ fuel)
    (hlt : fr < hd) : chunksGo cs hd fuel fr ≠ [] := by
  cases fuel with
  | zero => exact absurd hlt (by omega)
  | succ n =>
      rw [chunksGo, if_pos hlt]
      simp

/-- C7 counterexample: a catch-up span of 2,002 blocks (an exact multiple
of chunk stride + 1 = 1,001) ends with the checkpoint at 2,001 — not the
span's final height 2,002 — and block 2,002 lies in no processed chunk. -/
theorem C7_chunking_counterexample :
    chunks 1000 2002 0 = [(0, 1000), (1001, 2001)] ∧
    lastCheckpoint 0 (chunks 1000 2002 0) = 2001 ∧
    (2001 : Nat) ≠ 2002 ∧
    ∀ c ∈ chunks 1000 2002 0, ¬(c.1 ≤ 2002 ∧ 2002 ≤ c.2) := by
  refine ⟨by decide, by decide, by decide, by decide⟩

/-- C7 amended: the catch-up loop processes the chunk ranges
[from, min (from + chunkSize) head] in strictly increasing contiguous
order with no block in more than one chunk, every block from the start
through the final checkpoint covered, and every chunk end at
min (start + chunkSize) head; the checkpoint ends at the head unless
(head - start) is an exact multiple of chunkSize + 1, in which case the
final block is left to the tailing loop and the checkpoint ends at
head - 1; a span of 2,500 blocks with chunk size 1,000 processes exactly
the three chunks (0,1000), (1001,2001), (2002,2500) and the checkpoint
ends at 2,500. -/
theorem C7_catchup_chunking :
    (∀ chunkSize head fromB : Nat, fromB < head →
      chunks chunkSize head fromB ≠ [] ∧
      (∀ c, (chunks chunkSize head fromB).head? = some c → c.1 = fromB) ∧
      (∀ c ∈ chunks chunkSize head fromB,
        fromB ≤ c.1 ∧ c.1 < head ∧ c.2 = min (c.1 + chunkSize) head) ∧
      List.Chain' (fun a b : Nat × Nat => b.1 = a.2 + 1)
        (chunks chunkSize head fromB) ∧
      List.Pairwise (fun a b : Nat × Nat => a.2 < b.1)
        (chunks chunkSize head fromB) ∧
      (∀ b, fromB ≤ b →
        b ≤ lastCheckpoint fromB (chunks chunkSize head fromB) →
        ∃ c ∈ chunks chunkSize head fromB, c.1 ≤ b ∧ b ≤ c.2) ∧
      lastCheckpoint fromB (chunks chunkSize head fromB) =
        (if (head - fromB) % (chunkSize + 1) = 0 then head - 1 else head)) ∧
    chunks 1000 2500 0 = [(0, 1000), (1001, 2001), (2002, 2500)] ∧
    lastCheckpoint 0 (chunks 1000 2500 0) = 2500 := by
  refine ⟨fun cs hd fr hlt => ?_, by decide, by decide⟩
  refine ⟨chunksGo_ne_nil cs hd _ fr (le_refl _) hlt,
    fun c hc => chunksGo_head_fst cs hd _ fr c hc,
    fun c hc => chunksGo_mem cs hd _ fr c hc,
    chunksGo_chain cs hd _ fr,
    chunksGo_pairwise cs hd _ fr,
    fun b hfb hble => chunksGo_cover cs hd _ fr (le_refl _) hlt b hfb hble,
    chunksGo_checkpoint cs hd _ fr fr (le_refl _) hlt⟩

/-- C7 witness: the general part applied at chunk size 1,000, head 2,500,
start 0 — the chunk list is nonempty and block 1,500 lies in a chunk. -/
theorem C7_catchup_chunking_witness :
    0 < 2500 ∧ chunks 1000 2500 0 ≠ [] ∧
    (∃ c ∈ chunks 1000 2500 0, c.1 ≤ 1500 ∧ 1500 ≤ c.2) :=
  ⟨by norm_num, (C7_catchup_chunking.1 1000 2500 0 (by norm_num)).1,
   (C7_catchup_chunking.1 1000 2500 0 (by norm_num)).2.2.2.2.2.1 1500
     (by norm_num) (by decide)⟩

lemma processBlockRangeE_eq (handler : Nat × Nat → Except String Unit)
    (r : Nat × Nat) : processBlockRangeE handler r = .ok (errLog handler r) := by
  unfold processBlockRangeE errLog
  cases handler r <;> rfl

lemma syncStep_eq (handler : Nat × Nat → Except String Unit)
    (acc : SyncResult) (c : Nat × Nat) :
    syncStep handler acc c =
      Except.ok ⟨c.2, acc.handled ++ [c], acc.errors ++ errLog handler c⟩ := by
  unfold syncStep
  rw [processBlockRangeE_eq]
  rfl

lemma syncFold (handler : Nat × Nat → Except String Unit) :
    ∀ (L : List (Nat × Nat)) (acc : SyncResult),
      L.foldlM (syncStep handler) acc =
        Except.ok ⟨lastCheckpoint acc.checkpoint L, acc.handled ++ L,
          acc.errors ++ L.flatMap (errLog handler)⟩ := by
  intro L
  induction L with
  | nil =>
      intro acc
      simp only [List.foldlM_nil, List.append_nil, List.flatMap_nil]
      rfl
  | cons c t ih =>
      intro acc
      rw [List.foldlM_cons, syncStep_eq]
      show t.foldlM (syncStep handler)
        ⟨c.2, acc.handled ++ [c], acc.errors ++ errLog handler c⟩ = _
      rw [ih]
      simp [List.append_assoc, List.singleton_append, List.flatMap_cons,
        lastCheckpoint_cons]

/-- C10: the catch-up loop never propagates a per-range failure: for every
handler the run returns normally, invokes the handler on exactly the chunk
sequence (each chunk once, in strictly increasing disjoint order — a
failed chunk is never retried), ends with the checkpoint advanced to the
last chunk's end independently of which chunks failed, and logs exactly
one error entry per failed chunk. -/
theorem C10_chunk_failure_dropped
    (handler : Nat × Nat → Except String Unit) (chunkSize head fromB : Nat) :
    syncHistorical handler chunkSize head fromB =
      Except.ok ⟨lastCheckpoint fromB (chunks chunkSize head fromB),
        chunks chunkSize head fromB,
        (chunks chunkSize head fromB).flatMap (errLog handler)⟩ ∧
    List.Pairwise (fun a b : Nat × Nat => a.2 < b.1)
      (chunks chunkSize head fromB) := by
  constructor
  · unfold syncHistorical
    rw [syncFold]
    simp only [List.nil_append]
  · exact chunksGo_pairwise chunkSize head _ fromB

/-! ## Claims about verifier failure handling -/

/-- C9 counterexample: an analytic compute failure (the problem parses but
`_compute_solution` returns nothing) yields confidence 0.3 — not the
claimed 0 — so the failed verifier stays usable by the merge policy's
"both confidences > 0" tests. -/
theorem C9_failure_confidence_counterexample :
    (sympyVerify (.ok (some "x")) (fun _ => .ok none) (.ok none)
        (fun _ _ => .ok false)).confidence = 3/10 ∧
    ¬((3 : ℚ)/10 = 0) ∧ ((3 : ℚ)/10 > 0) ∧
    (sympyVerify (.ok (some "x")) (fun _ => .ok none) (.ok none)
        (fun _ _ => .ok false)).reason =
      some "Could not compute expected solution" :=
  ⟨rfl, by norm_num, by norm_num, rfl⟩

/-- C9 amended: a parse or compute failure never aborts — every failure
path returns a judgment and the merge still yields a verdict — but the
failing verifier's confidence is 0 only when the analytic problem parse
fails or the heuristic is unavailable or errors; an analytic compute
failure returns 0.3, a solution-parse failure 0.5, an internal exception
0.1, and a heuristic JSON-decode fallback 0.6.  When the analytic verifier
fails with confidence 0 the merged verdict is the heuristic's judgment
verbatim (method "gpt"); when the heuristic fails with confidence 0 and
the analytic confidence is below 0.9, the merged verdict is the failed
heuristic's zero-confidence judgment, not the analytic one. -/
theorem C9_failure_paths_amended :
    (∀ comp psub cmp, sympyVerify (.ok none) comp psub cmp =
        ⟨false, 0, none, some "Could not parse problem"⟩) ∧
    (∀ pe comp psub cmp, comp pe = .ok none →
      sympyVerify (.ok (some pe)) comp psub cmp =
        ⟨false, 3/10, none, some "Could not compute expected solution"⟩) ∧
    (∀ pe exp comp cmp, comp pe = .ok (some exp) →
      sympyVerify (.ok (some pe)) comp (.ok none) cmp =
        ⟨false, 1/2, some exp, some "Could not parse submitted solution"⟩) ∧
    (∀ m comp psub cmp, sympyVerify (.error m) comp psub cmp =
        ⟨false, 1/10, none, some ("Verification error: " ++ m)⟩) ∧
    (gptVerify .unavailable =
      ⟨false, 0, none, some "OpenAI API not available"⟩) ∧
    (∀ m, gptVerify (.raised m) =
      ⟨false, 0, none, some ("GPT error: " ++ m)⟩) ∧
    (∀ lc s, gptVerify (.jsonFallback lc s) = ⟨lc, 3/5, none, some s⟩) ∧
    (∀ oid r gptCall,
      (verify_solution oid ⟨false, 0, none, r⟩ gptCall).1 =
        ⟨oid, (gptCall ()).is_correct, (gptCall ()).confidence, "gpt",
         (gptCall ()).expected_solution, (gptCall ()).reason⟩) ∧
    (∀ (oid : Nat) (sy : VerificationResult) (r2 : Option String),
      sy.confidence < 9/10 →
      (verify_solution oid sy (fun _ => ⟨false, 0, none, r2⟩)).1 =
        ⟨oid, false, 0, "gpt", none, r2⟩) := by
  refine ⟨fun comp psub cmp => rfl, fun pe comp psub cmp h => ?_,
    fun pe exp comp cmp h => ?_, fun m comp psub cmp => rfl, rfl,
    fun m => rfl, fun lc s => rfl, fun oid r gptCall => ?_,
    fun oid sy r2 h => ?_⟩
  · simp only [sympyVerify, sympyVerifyE, h]
  · simp only [sympyVerify, sympyVerifyE, h]
  · have h1 : ¬((⟨false, 0, none, r⟩ : VerificationResult).confidence ≥ 9/10) := by
      norm_num
    have h2 : ¬((⟨false, 0, none, r⟩ : VerificationResult).confidence > 0 ∧
        (gptCall ()).confidence > 0) := by
      rintro ⟨hc, -⟩
      norm_num at hc
    rw [verify_solution, if_neg h1, if_neg h2]
  · have h1 : ¬(sy.confidence ≥ 9/10) := not_le.mpr h
    have h2 : ¬(sy.confidence > 0 ∧
        ((fun _ : Unit => (⟨false, 0, none, r2⟩ : VerificationResult)) ()).confidence > 0) := by
      rintro ⟨-, hc⟩
      norm_num at hc
    rw [verify_solution, if_neg h1, if_neg h2]

/-- C9 amended witness: a concrete compute failure maps to confidence 0.3;
a concrete solution-parse failure to 0.5; a mid-confidence analytic
judgment merged with a failed heuristic yields the heuristic's
zero-confidence verdict. -/
theorem C9_failure_paths_amended_witness :
    sympyVerify (.ok (some "x")) (fun _ => .ok none) (.ok none)
        (fun _ _ => .ok false) =
      ⟨false, 3/10, none, some "Could not compute expected solution"⟩ ∧
    sympyVerify (.ok (some "x")) (fun _ => .ok (some "2*x")) (.ok none)
        (fun _ _ => .ok false) =
      ⟨false, 1/2, some "2*x", some "Could not parse submitted solution"⟩ ∧
    ((1 : ℚ)/2 < 9/10 ∧
      (verify_solution 4 ⟨true, 1/2, none, none⟩
          (fun _ => ⟨false, 0, none, none⟩)).1 =
        ⟨4, false, 0, "gpt", none, none⟩) :=
  ⟨C9_failure_paths_amended.2.1 "x" (fun _ => .ok none) (.ok none)
      (fun _ _ => .ok false) rfl,
   C9_failure_paths_amended.2.2.1 "x" "2*x" (fun _ => .ok (some "2*x"))
      (fun _ _ => .ok false) rfl,
   by norm_num,
   C9_failure_paths_amended.2.2.2.2.2.2.2.2 4 ⟨true, 1/2, none, none⟩ none
      (by norm_num)⟩

end Ominis
